import Mathlib

/-!
# Verification of the Axiom AI retrieval-and-synthesis pipeline

Shallow embedding, in Lean 4, of the components of the `axiom-ai` repository
that the specification's testable claims talk about:

* `BasicChunker.chunk`            (src/axiom/core/basic_chunker.py)
* `EnsembleRetriever`             (src/app.py)
* `LLMSynthesizer`                (src/axiom/core/llm_synthesizer.py)
* the `retry` decorator           (src/axiom/retry_utils.py)
* `LRUCache`                      (src/axiom/caching/lru_cache.py)
* `StateTracker`                  (src/axiom/state_tracker.py)
* `QueryEngine.query`             (src/axiom/core/query_engine.py)
* `ChromaVectorStore.add`         (src/axiom/core/vector_store.py)

Python strings are modelled as `List Char` (`Str`), Python ints as `Nat`/`Int`,
Python floats as exact rationals (`ℚ`), dictionaries as association lists with
Python's insertion-order/overwrite-in-place update semantics, exceptions as
`Except`/sum types, and the SQLite tables of the state tracker as in-memory
lists of records.  External capabilities (embedding model, language model,
tokenizer) are oracle parameters.  Wall-clock time is an explicit parameter.
-/

/-- Python strings, modelled as lists of characters. -/

abbrev Str := List Char

/-- Shorthand: the character list of a Lean string literal. -/

def str (s : String) : Str := s.toList

/-- A primitive metadata value (Python mixes strings and ints in chunk
metadata). -/

inductive MetaVal where
  | s (v : Str)
  | i (v : Int)
deriving DecidableEq, Repr

/-- Python's `str()` rendering of a metadata value (used by f-strings). -/

def MetaVal.pyStr : MetaVal → Str
  | .s v => v
  | .i v => str v.repr

/-- Python truthiness of a metadata value (`''` and `0` are falsy). -/

def MetaVal.pyTruthy : MetaVal → Bool
  | .s v => !v.isEmpty
  | .i v => v ≠ 0

/-- A Python `dict` of metadata: association list, first-insertion order. -/

abbrev Meta := List (Str × MetaVal)

/-- Model of `d[k]`-with-default, i.e. Python's `dict.get(k, default)`. -/

def Meta.getD (m : Meta) (k : Str) (d : MetaVal) : MetaVal :=
  match m.find? (fun kv => kv.1 = k) with
  | some kv => kv.2
  | none => d

/-- One `dict` update `d[k] = v`: overwrite in place if the key is present
(keeping its position, as CPython dicts do), else append at the end. -/

def Meta.set (m : Meta) (k : Str) (v : MetaVal) : Meta :=
  match m with
  | [] => [(k, v)]
  | (k', v') :: rest =>
      if k' = k then (k, v) :: rest else (k', v') :: Meta.set rest k v

/-- Model of `dict.update` with several keys, applied left to right. -/

def Meta.update (m : Meta) (kvs : List (Str × MetaVal)) : Meta :=
  kvs.foldl (fun acc kv => acc.set kv.1 kv.2) m

/-- Model of `DocumentChunk` from src/axiom/core/interfaces.py: a piece of text plus
its metadata dictionary. -/

structure DocumentChunk where
  text : Str
  metadata : Meta
deriving DecidableEq, Repr

/-! ## 1. BasicChunker (src/axiom/core/basic_chunker.py)

`_validate_config` fails fast unless `chunk_size > 0`, `chunk_overlap ≥ 0`
and `chunk_overlap < chunk_size`; a constructed `BasicChunker` therefore
always carries a valid configuration, which the structure records as proof
fields. -/

structure BasicChunker where
  chunk_size : Nat
  chunk_overlap : Nat
  size_pos : 0 < chunk_size
  overlap_lt : chunk_overlap < chunk_size

/-- Model of `self.chunk_size - self.chunk_overlap`, the amount by which the window
start advances on every loop iteration. -/

def BasicChunker.step (c : BasicChunker) : Nat := c.chunk_size - c.chunk_overlap

def BasicChunker.chunkLoop (c : BasicChunker) (text : Str) (meta : Meta)
    (fileHash : Str) : Nat → Nat → Nat → List DocumentChunk
  | 0, _, _ => []
  | fuel + 1, start, idx =>
      if start < text.length then
        let chunkText := (text.drop start).take c.chunk_size
        let chunkMeta := meta.update
          [(str "chunk_index", .i idx),
           (str "start_offset", .i start),
           (str "end_offset", .i (start + chunkText.length)),
           (str "chunk_length", .i chunkText.length),
           (str "file_hash", .s fileHash)]
        ⟨chunkText, chunkMeta⟩ ::
          c.chunkLoop text meta fileHash fuel (start + c.step) (idx + 1)
      else []

/-- Model of `BasicChunker.chunk`: empty text yields `[]`; otherwise fixed-size
windows of `chunk_size` characters advancing by `chunk_size - chunk_overlap`
until the window start reaches the end of the text. -/

def BasicChunker.chunk (c : BasicChunker) (document : DocumentChunk)
    (fileHash : Str) : List DocumentChunk :=
  if document.text = [] then []
  else c.chunkLoop document.text document.metadata fileHash
    document.text.length 0 0

/-- The fragment count asserted by the specification:
`ceil(max(L - overlap, 1) / (size - overlap))`. -/

def specClaimedChunkCount (L size overlap : Nat) : Nat :=
  (max (L - overlap) 1 + (size - overlap) - 1) / (size - overlap)

/-- With enough fuel, the loop starting below the end of the text produces
`ceil((L - start) / step)` chunks. -/

structure PyExc where
  msg : Str
deriving DecidableEq, Repr

/-- Outcome of a single invocation of the wrapped function. -/

inductive CallResult (α : Type) where
  | ok (v : α)
  | caught (e : PyExc)
  | uncaught (e : PyExc)
deriving DecidableEq, Repr

/-- The `AllRetriesFailed` exception: carries the original (last) exception
and the attempt count (src/axiom/retry_utils.py, class AllRetriesFailed). -/

structure AllRetriesFailed where
  original_exception : Option PyExc
  attempts : Nat
deriving DecidableEq, Repr

/-- What the wrapper produces. -/

inductive RetryOutcome (α : Type) where
  | ok (v : α)
  | exhausted (e : AllRetriesFailed)
  | uncaught (e : PyExc)
deriving DecidableEq, Repr

/-- The `for attempt in range(1, max_attempts + 1)` loop of the wrapper in
`retry`.  `k` is the number of attempts still allowed, `calls` the number of
invocations made so far (so invocation `calls` is the next one), `last` the
last caught exception.  When the loop ends the wrapper raises
`AllRetriesFailed(..., attempts=max_attempts)`. -/

def retryAux (f : Nat → CallResult α) (maxAttempts : Nat) :
    Nat → Nat → Option PyExc → RetryOutcome α × Nat
  | 0, calls, last => (.exhausted ⟨last, maxAttempts⟩, calls)
  | k + 1, calls, last =>
      match f calls with
      | .ok v => (.ok v, calls + 1)
      | .uncaught e => (.uncaught e, calls + 1)
      | .caught e => retryAux f maxAttempts k (calls + 1) (some e)

/-- The wrapper produced by `retry(max_attempts=...)` applied to `f`:
returns the outcome together with the number of times `f` was invoked. -/

def retryCall (maxAttempts : Nat) (f : Nat → CallResult α) :
    RetryOutcome α × Nat :=
  retryAux f maxAttempts maxAttempts 0 none

structure CacheStats where
  hits : Nat
  misses : Nat
  evictions : Nat
deriving DecidableEq, Repr

structure LRUCache (α : Type) where
  capacity : Nat
  cap_pos : 0 < capacity
  ttl : Option ℚ
  items : List (Str × α × ℚ)
  stats : CacheStats

/-- A fresh cache (`capacity <= 0` raises at construction, recorded as the
`cap_pos` proof field). -/

def LRUCache.init (α : Type) (capacity : Nat) (h : 0 < capacity)
    (ttl : Option ℚ) : LRUCache α :=
  ⟨capacity, h, ttl, [], ⟨0, 0, 0⟩⟩

def LRUCache.keys (c : LRUCache α) : List Str := c.items.map (·.1)

/-- Model of `if self.ttl and (time.time() - timestamp) > self.ttl`. -/

def ttlExpired : Option ℚ → ℚ → ℚ → Bool
  | none, _, _ => false
  | some t, now, ts => t ≠ 0 && now - ts > t

/-- Model of `LRUCache._get_internal`. -/

def LRUCache.getInternal (c : LRUCache α) (now : ℚ) (k : Str) :
    Option α × LRUCache α :=
  match c.items.find? (fun e => e.1 = k) with
  | none => (none, { c with stats := { c.stats with misses := c.stats.misses + 1 } })
  | some (_, v, ts) =>
      if ttlExpired c.ttl now ts then
        (none, { c with
          items := c.items.eraseP (fun e => e.1 = k),
          stats := { c.stats with misses := c.stats.misses + 1 } })
      else
        (some v, { c with
          items := c.items.eraseP (fun e => e.1 = k) ++ [(k, v, ts)],
          stats := { c.stats with hits := c.stats.hits + 1 } })

/-- Model of `LRUCache._put_internal`. -/

def LRUCache.putInternal (c : LRUCache α) (now : ℚ) (k : Str) (v : α) :
    LRUCache α :=
  if (c.items.find? (fun e => e.1 = k)).isSome then
    -- update existing entry and move it to the most-recently-used end
    { c with items := c.items.eraseP (fun e => e.1 = k) ++ [(k, v, now)] }
  else if c.items.length ≥ c.capacity then
    -- evict the least-recently-used entry (the head), then insert
    { c with
      items := c.items.tail ++ [(k, v, now)],
      stats := { c.stats with evictions := c.stats.evictions + 1 } }
  else
    { c with items := c.items ++ [(k, v, now)] }

def c5Scenario : LRUCache Nat :=
  (((LRUCache.init Nat 3 (by decide) none).putInternal 1 (str "a") 10
    ).putInternal 2 (str "b") 20).putInternal 3 (str "c") 30

/-- The scenario cache after the get(a) hit. -/

def c5AfterGet : LRUCache Nat := (c5Scenario.getInternal 4 (str "a")).2

/-- The scenario cache after the final put(d). -/

def c5Final : LRUCache Nat := c5AfterGet.putInternal 5 (str "d") 40

/-- Witness for `C5_lru_eviction`: the claim's own capacity-3 scenario
put(a),put(b),put(c),get(a),put(d), checked through the theorem: the final
put pops the least-recently-used entry `b`, leaves `a`, `c`, `d` present, and
bumps the eviction counter by one. -/

inductive FileStatus where
  | seen
  | processing
  | completed
  | failed
deriving DecidableEq, Repr

structure FileRecord where
  file_path : Str
  file_hash : Str
  status : FileStatus
  created_at : Nat
  updated_at : Nat
  error_message : Option Str
  metadata : Option Str
deriving DecidableEq, Repr

structure HistoryEntry where
  session_id : Str
  question : Str
  answer : Str
  created_at : Nat
deriving DecidableEq, Repr

structure StateTracker where
  files : List FileRecord
  history : List HistoryEntry
deriving DecidableEq, Repr

/-- Model of `UPDATE files SET status = 'processing', updated_at = ? WHERE file_path = ?`. -/

def StateTracker.record_processing_start (t : StateTracker) (p : Str)
    (now : Nat) : StateTracker :=
  { t with files := t.files.map (fun r =>
      if r.file_path = p then { r with status := .processing, updated_at := now }
      else r) }

/-- Model of `UPDATE files SET status = 'completed', updated_at = ?, metadata = ?
WHERE file_path = ?` (the JSON-serialized metadata is kept opaque). -/

def StateTracker.record_processing_complete (t : StateTracker) (p : Str)
    (metadataJson : Option Str) (now : Nat) : StateTracker :=
  { t with files := t.files.map (fun r =>
      if r.file_path = p then
        { r with status := .completed, updated_at := now, metadata := metadataJson }
      else r) }

/-- Model of `UPDATE files SET status = 'failed', updated_at = ?, error_message = ?
WHERE file_path = ?`. -/

def StateTracker.record_processing_failed (t : StateTracker) (p : Str)
    (errorMessage : Str) (now : Nat) : StateTracker :=
  { t with files := t.files.map (fun r =>
      if r.file_path = p then
        { r with status := .failed, updated_at := now,
                 error_message := some errorMessage }
      else r) }

/-- Model of `SELECT status FROM files WHERE file_path = ?` + `fetchone`. -/

def StateTracker.get_file_status (t : StateTracker) (p : Str) :
    Option FileStatus :=
  (t.files.find? (fun r => r.file_path = p)).map (fun r => r.status)

/-- Model of `INSERT INTO query_history (session_id, question, answer, created_at)`. -/

def StateTracker.add_query_to_history (t : StateTracker) (sid q a : Str)
    (now : Nat) : StateTracker :=
  { t with history := t.history ++ [⟨sid, q, a, now⟩] }

/-- Descending comparison on creation time used to model
`ORDER BY created_at DESC`. -/

def hDescLe (a b : HistoryEntry) : Bool := b.created_at ≤ a.created_at

/-- Model of `StateTracker.get_query_history`: rows of the session ordered newest
first, limited, then reversed into chronological order by the Python code. -/

def StateTracker.get_query_history (t : StateTracker) (sid : Str)
    (limit : Nat) : List HistoryEntry :=
  ((((t.history.filter (fun e => e.session_id = sid)).mergeSort hDescLe).take
    limit)).reverse

/-- Mapping a per-row update over rows none of which match the `WHERE`
clause leaves the table unchanged. -/

def c9Tracker : StateTracker :=
  ⟨[], [⟨str "s1", str "q1", str "a1", 1⟩,
        ⟨str "s1", str "q2", str "a2", 2⟩,
        ⟨str "s2", str "q3", str "a3", 3⟩,
        ⟨str "s1", str "q4", str "a4", 4⟩]⟩

/-- Witness for `C9_history_order`: with limit 2 on session `s1`, the result
is the two most recent `s1` rows, oldest first. -/

def pyJoin (sep : Str) : List Str → Str
  | [] => []
  | [x] => x
  | x :: y :: t => x ++ sep ++ pyJoin sep (y :: t)

/-- Model of `TOKEN_BUDGET = 3000`. -/

def TOKEN_BUDGET : Nat := 3000

/-- The labelled context block built for the `i`-th chunk (1-based) in
`_format_context_for_prompt`:
`f"Source {i} (File: {source}, Page: {page if page else 'N/A'}):\n---\n{chunk.text}\n---"`. -/

def mkContextBlock (i : Nat) (chunk : DocumentChunk) : Str :=
  let source := chunk.metadata.getD (str "source_file_path")
    (.s (str "Unknown Source"))
  let page := chunk.metadata.getD (str "page_number") (.s [])
  str "Source " ++ str i.repr ++ str " (File: " ++ source.pyStr ++
    str ", Page: " ++ (if page.pyTruthy then page.pyStr else str "N/A") ++
    str "):" ++ str "\n---\n" ++ chunk.text ++ str "\n---"

/-- The `for i, chunk in enumerate(chunks, 1)` loop of
`_format_context_for_prompt` with its running token total and `break`. -/

def formatLoop (countTokens : Str → Nat) :
    List (Nat × DocumentChunk) → Nat → List Str
  | [], _ => []
  | (i, c) :: rest, total =>
      let block := mkContextBlock i c
      let n := countTokens block
      if TOKEN_BUDGET < total + n then []
      else block :: formatLoop countTokens rest (total + n)

/-- Model of `LLMSynthesizer._format_context_for_prompt`. -/

def formatContextForPrompt (countTokens : Str → Nat)
    (chunks : List DocumentChunk) : Str :=
  pyJoin (str "\n\n") (formatLoop countTokens (List.enumFrom 1 chunks) 0)

/-- The per-excerpt parts appended by the `for i, chunk in
enumerate(context_chunks[:5], 1)` loop of `_generate_degraded_answer`. -/

def degradedExcerptBlocks (chunks : List DocumentChunk) : List Str :=
  (List.enumFrom 1 (chunks.take 5)).flatMap (fun p =>
    [str "**Excerpt " ++ str p.1.repr ++ str "** (from " ++
       (p.2.metadata.getD (str "source_file_path")
         (.s (str "Unknown source"))).pyStr ++ str "):",
     if 500 < p.2.text.length then p.2.text.take 500 ++ str "..." else p.2.text,
     []])

/-- The degraded-mode banner line (first element of `response_parts`). -/

def degradedBanner : Str :=
  str "âš ï¸ **DEGRADED MODE**: The AI synthesis service is temporarily unavailable."

/-- The full `response_parts` list of `_generate_degraded_answer`. -/

def degradedParts (query : Str) (chunks : List DocumentChunk) : List Str :=
  [degradedBanner,
   [],
   str "**Your Question**: " ++ query,
   [],
   str "**Retrieved Document Excerpts** (unprocessed):",
   []]
  ++ degradedExcerptBlocks chunks
  ++ [str "---",
      [],
      str "ðŸ’¡ **Note**: These are raw document excerpts. Normal service will provide a synthesized answer.",
      str "Please try again in a few moments or contact support if the issue persists."]

/-- Model of `LLMSynthesizer._generate_degraded_answer`. -/

def generateDegradedAnswer (query : Str) (chunks : List DocumentChunk) : Str :=
  pyJoin (str "\n") (degradedParts query chunks)

/-- Model of `LLMSynthesizer._format_history_for_prompt`. -/

def formatHistoryForPrompt (history : List HistoryEntry) : Str :=
  if history = [] then []
  else pyJoin (str "\n") (str "Previous conversation:" ::
    history.flatMap (fun it =>
      [str "User: " ++ it.question, str "Assistant: " ++ it.answer]))

/-- Outcome of one `provider.generate_answer(...)` call as observed by
`synthesize` (the provider's own retry wrapper may raise
`AllRetriesFailed`). -/

inductive ProviderResult where
  | ok (answer : Str)
  | retriesExhausted (e : AllRetriesFailed)
  | uncaught (e : PyExc)
deriving DecidableEq, Repr

/-- Model of `LLMSynthesizer.synthesize`.  Returns the final answer together with the
possibly-updated state tracker, or propagates an uncaught provider
exception.  Python's `if self.state_tracker and session_id:` is falsy for a
missing tracker, a missing session id, and the empty-string session id. -/

def LLMSynthesizer.synthesize (provider : Str → Str → Str → ProviderResult)
    (countTokens : Str → Nat) (tracker : Option StateTracker)
    (sessionId : Option Str) (now : Nat) (query : Str)
    (contextChunks : List DocumentChunk) :
    Except PyExc (Str × Option StateTracker) :=
  if contextChunks = [] then
    .ok (str "There is not enough information in the provided documents to answer this question.",
      tracker)
  else
    let historyString :=
      match tracker, sessionId with
      | some t, some sid =>
          if sid.isEmpty then [] else formatHistoryForPrompt (t.get_query_history sid 5)
      | _, _ => []
    let contextString := formatContextForPrompt countTokens contextChunks
    match provider query contextString historyString with
    | .uncaught e => .error e
    | .ok ans =>
        match tracker, sessionId with
        | some t, some sid =>
            if sid.isEmpty then .ok (ans, tracker)
            else .ok (ans, some (t.add_query_to_history sid query ans now))
        | _, _ => .ok (ans, tracker)
    | .retriesExhausted _ =>
        let ans := generateDegradedAnswer query contextChunks
        match tracker, sessionId with
        | some t, some sid =>
            if sid.isEmpty then .ok (ans, tracker)
            else .ok (ans, some (t.add_query_to_history sid query ans now))
        | _, _ => .ok (ans, tracker)

/-- A member of a joined list is a contiguous substring of the join. -/

def c6Degraded : Str := generateDegradedAnswer (str "q") [⟨str "fact", []⟩]

/-- C6 (counterexample). The stored history entry of a degraded response
is *not* flagged distinctly from entries recording normal synthesized
answers: a degraded-mode run and a normal run whose provider happens to
return the same text persist byte-for-byte identical history entries (the
`query_history` row has only `session_id`, `question`, `answer`,
`created_at` — no flag column), so no distinct flagging exists. -/

def pyIsSpace (c : Char) : Bool :=
  c == ' ' || c == '\t' || c == '\n' || c == '\r' || c == '\x0b' || c == '\x0c'

/-- Python `question.strip()`. -/

def pyStrip (s : Str) : Str :=
  ((s.dropWhile pyIsSpace).reverse.dropWhile pyIsSpace).reverse

/-- Model of `top_k = top_k or self.max_context_chunks` (Python `or`: both `None`
and `0` fall back to the default). -/

def effectiveTopK : Option Nat → Nat → Nat
  | none, d => d
  | some k, d => if k = 0 then d else k

/-- Model of `QueryResult` from src/axiom/core/interfaces.py. -/

structure QueryResult where
  question : Str
  answer : Str
  context_chunks : List DocumentChunk
deriving DecidableEq, Repr

/-- The pipeline stages whose external calls `query` can reach. -/

inductive Stage where
  | embedding
  | retrieval
  | synthesis
deriving DecidableEq, Repr

/-- The exceptions `query` raises to its caller (before the `try:` block). -/

inductive QueryError where
  | permissionError (msg : Str)
  | validationError (msg : Str)
deriving DecidableEq, Repr

/-- Model of `QueryEngine.query`. -/

def QueryEngine.query (requireAuth apiKeyValid : Bool)
    (embedQuestion : Str → List ℚ)
    (storeQuery : List ℚ → Nat → List DocumentChunk)
    (provider : Str → Str → Str → ProviderResult)
    (countTokens : Str → Nat)
    (tracker : Option StateTracker) (sessionId : Option Str) (now : Nat)
    (maxContextChunks : Nat) (question : Str) (topK : Option Nat) :
    (Except QueryError (QueryResult × Option StateTracker)) × List Stage :=
  if requireAuth && !apiKeyValid then
    (.error (.permissionError (str "Invalid or missing API key")), [])
  else if (pyStrip question).isEmpty then
    (.error (.validationError (str "Question cannot be empty")), [])
  else
    let k := effectiveTopK topK maxContextChunks
    let emb := embedQuestion question
    let searchResults := storeQuery emb k
    match LLMSynthesizer.synthesize provider countTokens tracker sessionId now
        question searchResults with
    | .ok (answer, tracker') =>
        (.ok (⟨question, answer, searchResults⟩, tracker'),
         [.embedding, .retrieval, .synthesis])
    | .error _ =>
        (.ok (⟨question,
           str "I am sorry, but an unexpected error occurred while processing your request.",
           []⟩, tracker),
         [.embedding, .retrieval, .synthesis])

/-- A record persisted in the Chroma collection. -/

structure StoredDoc where
  id : Str
  embedding : List ℚ
  document : Str
  metadata : Meta
deriving DecidableEq, Repr

/-- Model of `f"{chunk.metadata.get('file_hash', 'unknown')}-{chunk.metadata.get('chunk_index', '0')}"`. -/

def chromaId (c : DocumentChunk) : Str :=
  (c.metadata.getD (str "file_hash") (.s (str "unknown"))).pyStr ++ str "-" ++
    (c.metadata.getD (str "chunk_index") (.s (str "0"))).pyStr

/-- Model of `ChromaVectorStore.add`: returns the outcome and the collection's new
contents (unchanged when a validation error is raised). -/

def ChromaVectorStore.add (stored : List StoredDoc)
    (chunks : List DocumentChunk) (embeddings : List (List ℚ)) :
    (Except PyExc (List Str)) × List StoredDoc :=
  if chunks = [] then (.ok [], stored)
  else if chunks.length ≠ embeddings.length then
    (.error ⟨str "The number of chunks must match the number of embeddings."⟩,
     stored)
  else
    let ids := chunks.map chromaId
    (.ok ids,
     stored ++ (ids.zip (chunks.zip embeddings)).map
       (fun p => ⟨p.1, p.2.2, p.2.1.text, p.2.1.metadata⟩))

/-- A question made only of whitespace strips to the empty string. -/

def c3BigChunk : DocumentChunk := ⟨List.replicate 501 'Z', []⟩

/-- The answer returned by the C3 counterexample run. -/

def c3Answer : Str := generateDegradedAnswer (str "q") [c3BigChunk]

/-- The oversized fragment is truncated to its first 500 characters in the
degraded answer. -/

structure LCDocument where
  page_content : Str
  metadata : Meta
deriving DecidableEq, Repr

/-- The deduplication key `(hash(doc.page_content[:200]),
doc.metadata.get("source", ""), doc.metadata.get("page", ""))`. -/

abbrev DocKey := Int × MetaVal × MetaVal

def docKey (hashFn : Str → Int) (d : LCDocument) : DocKey :=
  (hashFn (d.page_content.take 200),
   d.metadata.getD (str "source") (.s []),
   d.metadata.getD (str "page") (.s []))

/-- An `all_docs` entry: key, document, fused score. -/

abbrev FusedEntry := DocKey × LCDocument × ℚ

/-- Model of `all_docs[doc_key] = (doc, new_score)`: overwrite the (unique) entry
holding the candidate's key, keeping its dict position. -/

def replaceEntry : List FusedEntry → FusedEntry → List FusedEntry
  | [], _ => []
  | e :: rest, cand =>
      if e.1 = cand.1 then cand :: rest else e :: replaceEntry rest cand

/-- One inner-loop iteration of `get_relevant_documents`: on a duplicate
key keep the entry with the strictly higher weighted score, otherwise
insert the candidate at the end of the dict. -/

def fuseStep (acc : List FusedEntry) (cand : FusedEntry) : List FusedEntry :=
  match acc.find? (fun e => e.1 = cand.1) with
  | some e => if e.2.2 < cand.2.2 then replaceEntry acc cand else acc
  | none => acc ++ [cand]

/-- All candidates in processing order, scored `weight * (1.0/(idx+1))`
with `idx` the 0-based rank in the retriever's list. -/

def weightedCandidates (hashFn : Str → Int)
    (pairs : List (List LCDocument × ℚ)) : List FusedEntry :=
  pairs.flatMap (fun rw => (List.enumFrom 0 rw.1).map (fun p =>
    (docKey hashFn p.2, p.2, rw.2 * (1 / (p.1 + 1 : ℚ)))))

/-- The `all_docs` dict after both loops (flat form of the nested fold). -/

def fuseDict (hashFn : Str → Int) (pairs : List (List LCDocument × ℚ)) :
    List FusedEntry :=
  (weightedCandidates hashFn pairs).foldl fuseStep []

/-- Model of `sorted(all_docs.values(), key=lambda x: x[1], reverse=True)`: stable
descending sort by fused score. -/

def fusedSorted (hashFn : Str → Int) (pairs : List (List LCDocument × ℚ)) :
    List FusedEntry :=
  (fuseDict hashFn pairs).mergeSort (fun a b => decide (b.2.2 ≤ a.2.2))

/-- Model of `EnsembleRetriever.get_relevant_documents`. -/

def EnsembleRetriever.getRelevantDocuments (hashFn : Str → Int)
    (pairs : List (List LCDocument × ℚ)) : List LCDocument :=
  let allDocs := pairs.foldl (fun acc rw =>
    (List.enumFrom 0 rw.1).foldl (fun acc p =>
      fuseStep acc (docKey hashFn p.2, p.2, rw.2 * (1 / (p.1 + 1 : ℚ)))) acc) []
  (allDocs.mergeSort (fun a b => decide (b.2.2 ≤ a.2.2))).map (fun e => e.2.1)

/-- The nested per-retriever/per-rank fold equals the flat fold over the
candidate stream. -/

def c2DocX : LCDocument := ⟨str "X content", [(str "source", .s (str "x.pdf"))]⟩

def c2DocZ : LCDocument := ⟨str "Z content", [(str "source", .s (str "z.pdf"))]⟩

/-- Dense retriever returns `[X]` with weight 0.7, lexical returns `[Z]`
with weight 0.3 (the spec's fusion weights). -/

def c2Pairs : List (List LCDocument × ℚ) := [([c2DocX], 7/10), ([c2DocZ], 3/10)]

/-- Witness for `C2_hybrid_fusion`: on the concrete two-retriever scenario
the dict keys are pairwise distinct, and its first entry is one of the
weighted candidates (discharging the membership hypothesis with a concrete
entry). -/

theorem BasicChunker.step_pos (c : BasicChunker) : 0 < c.step :=
  Nat.sub_pos_of_lt c.overlap_lt

/-- The `while start_offset < len(text)` loop of `BasicChunker.chunk`,
written with explicit fuel (the wrapper passes `text.length`, which bounds
the number of iterations because the window start strictly increases by
`chunk_size - chunk_overlap ≥ 1` each step). -/

theorem BasicChunker.chunkLoop_length (c : BasicChunker) (text : Str)
    (meta : Meta) (fileHash : Str) :
    ∀ fuel start idx, text.length - start ≤ fuel →
      (c.chunkLoop text meta fileHash fuel start idx).length =
        (text.length - start + c.step - 1) / c.step := by
  have hstep := c.step_pos
  intro fuel
  induction fuel with
  | zero =>
      intro start idx h
      have hz : text.length - start = 0 := Nat.le_zero.mp h
      simp only [chunkLoop, List.length_nil, hz]
      exact (Nat.div_eq_of_lt (by omega)).symm
  | succ fuel ih =>
      intro start idx h
      by_cases hlt : start < text.length
      · have hrec := ih (start + c.step) (idx + 1) (by omega)
        simp only [chunkLoop, if_pos hlt, List.length_cons]
        rw [hrec]
        by_cases hlast : start + c.step < text.length
        · -- remaining length after the step is still positive
          have h1 : text.length - (start + c.step) + c.step - 1
              = text.length - start - 1 := by omega
          have h2 : text.length - start + c.step - 1
              = (text.length - start - 1) + c.step := by omega
          rw [h1, h2, Nat.add_div_right _ hstep, Nat.add_comm]
        · -- last iteration: 1 ≤ remaining ≤ step
          have h1 : text.length - (start + c.step) = 0 := by omega
          rw [h1]
          have hz : (0 + c.step - 1) / c.step = 0 :=
            Nat.div_eq_of_lt (by omega)
          have ho : (text.length - start + c.step - 1) / c.step = 1 :=
            Nat.div_eq_of_lt_le (by omega) (by omega)
          omega
      · have hz : text.length - start = 0 := by omega
        simp only [chunkLoop, if_neg hlt, List.length_nil, hz]
        exact (Nat.div_eq_of_lt (by omega)).symm

/-- C1 (amended). For a validated configuration (`chunk_size > 0`,
`0 ≤ chunk_overlap < chunk_size`), `BasicChunker.chunk` returns exactly
`ceil(L / (chunk_size - chunk_overlap))` fragments for input text of length
`L > 0` — not the claimed `ceil(max(L - chunk_overlap, 1) /
(chunk_size - chunk_overlap))` — and returns the empty sequence, without
error, for empty input text. -/

theorem C1_chunk_count (c : BasicChunker) (document : DocumentChunk)
    (fileHash : Str) :
    (document.text = [] → c.chunk document fileHash = []) ∧
    (document.text ≠ [] →
      (c.chunk document fileHash).length =
        (document.text.length + (c.chunk_size - c.chunk_overlap) - 1) /
          (c.chunk_size - c.chunk_overlap)) := by
  constructor
  · intro h
    simp [BasicChunker.chunk, h]
  · intro h
    have hlen : 0 < document.text.length := List.length_pos.mpr h
    unfold BasicChunker.chunk
    rw [if_neg h]
    have := c.chunkLoop_length document.text document.metadata fileHash
      document.text.length 0 0 (by omega)
    simpa [BasicChunker.step] using this

/-- Witness for `C1_chunk_count`: a 61-character text with `chunk_size = 50`,
`chunk_overlap = 0` yields `ceil(61/50) = 2` fragments (the spec's own
scenario), and the empty text yields `[]`. -/

theorem C1_chunk_count_witness :
    (BasicChunker.chunk ⟨50, 0, by decide, by decide⟩
        ⟨List.replicate 61 'x', []⟩ (str "h")).length = 2 ∧
    BasicChunker.chunk ⟨50, 0, by decide, by decide⟩ ⟨[], []⟩ (str "h") = [] := by
  constructor
  · have h := (C1_chunk_count ⟨50, 0, by decide, by decide⟩
      ⟨List.replicate 61 'x', []⟩ (str "h")).2 (by decide)
    simpa using h
  · exact (C1_chunk_count ⟨50, 0, by decide, by decide⟩
      ⟨[], []⟩ (str "h")).1 rfl

/-- C1 (counterexample). With `chunk_size = 5`, `chunk_overlap = 2` and a
10-character text, the chunker produces 4 fragments (window starts 0, 3, 6, 9),
while the claimed formula gives `ceil(max(10-2,1)/3) = 3`. -/

theorem C1_counterexample :
    (BasicChunker.chunk ⟨5, 2, by decide, by decide⟩
        ⟨str "0123456789", []⟩ (str "h")).length = 4 ∧
    specClaimedChunkCount 10 5 2 = 3 ∧
    (BasicChunker.chunk ⟨5, 2, by decide, by decide⟩
        ⟨str "0123456789", []⟩ (str "h")).length ≠ specClaimedChunkCount 10 5 2 := by
  refine ⟨by decide, by decide, by decide⟩

/-! ## 2. The `retry` decorator (src/axiom/retry_utils.py)

A wrapped function is modelled as an oracle `f : Nat → CallResult α` giving
the outcome of its `i`-th invocation (0-based).  An invocation either
returns a value, raises an exception matched by the decorator's `exceptions`
tuple (a "retryable" exception, which the loop catches), or raises an
unmatched exception (which propagates).  The backoff sleeps are real-time
effects with no influence on the returned value and are not modelled. -/

/-- An opaque Python exception value. -/

theorem retryAux_ok (f : Nat → CallResult α) (m : Nat) (v : α) :
    ∀ k c last, 1 ≤ k →
      (∀ i, i < k - 1 → ∃ e, f (c + i) = .caught e) →
      f (c + (k - 1)) = .ok v →
      retryAux f m k c last = (.ok v, c + k) := by
  intro k
  induction k with
  | zero => omega
  | succ k ih =>
      intro c last _ hfail hok
      rcases Nat.eq_zero_or_pos k with hk | hk
      · subst hk
        rw [Nat.add_zero] at hok
        simp [retryAux, hok]
      · obtain ⟨e, he⟩ := hfail 0 (by omega)
        simp only [Nat.add_zero] at he
        simp only [retryAux, he]
        have := ih (c + 1) (some e) hk
          (fun i hi => by
            have := hfail (i + 1) (by omega)
            simpa [Nat.add_assoc, Nat.add_comm 1 i] using this)
          (by
            have : c + 1 + (k - 1) = c + (k + 1 - 1) := by omega
            rw [this]; exact hok)
        rw [this]
        congr 1
        omega

theorem retryAux_exhausted (f : Nat → CallResult α) (m : Nat)
    (err : Nat → PyExc) :
    ∀ k c last, 1 ≤ k →
      (∀ i, i < k → f (c + i) = .caught (err (c + i))) →
      retryAux f m k c last =
        (.exhausted ⟨some (err (c + (k - 1))), m⟩, c + k) := by
  intro k
  induction k with
  | zero => omega
  | succ k ih =>
      intro c last _ hfail
      have he := hfail 0 (by omega)
      simp only [Nat.add_zero] at he
      simp only [retryAux, he]
      rcases Nat.eq_zero_or_pos k with hk | hk
      · subst hk
        simp [retryAux]
      · have := ih (c + 1) (some (err c)) hk
          (fun i hi => by
            have := hfail (i + 1) (by omega)
            simpa [Nat.add_assoc, Nat.add_comm 1 i] using this)
        rw [this]
        have harg : c + 1 + (k - 1) = c + (k + 1 - 1) := by omega
        rw [harg]
        congr 1
        omega

/-- C4 (confirmed). For a function wrapped with `retry(max_attempts=m)`,
`m ≥ 1`: if it raises a retryable exception on exactly the first `m - 1`
invocations and then succeeds, the wrapper returns the success value having
invoked it exactly `m` times; if it raises a retryable exception on all `m`
invocations, the wrapper raises `AllRetriesFailed` carrying the last original
exception and `attempts = m`, having invoked the function exactly `m` times. -/

theorem C4_retry_determinism (m : Nat) (hm : 1 ≤ m) (f : Nat → CallResult α) :
    (∀ v : α, (∀ i, i < m - 1 → ∃ e, f i = .caught e) → f (m - 1) = .ok v →
      retryCall m f = (.ok v, m)) ∧
    (∀ err : Nat → PyExc, (∀ i, i < m → f i = .caught (err i)) →
      retryCall m f = (.exhausted ⟨some (err (m - 1)), m⟩, m)) := by
  constructor
  · intro v hfail hok
    have := retryAux_ok f m v m 0 none hm
      (fun i hi => by simpa using hfail i hi) (by simpa using hok)
    simpa [retryCall] using this
  · intro err hfail
    have := retryAux_exhausted f m err m 0 none hm
      (fun i hi => by simpa using hfail i hi)
    simpa [retryCall] using this

/-- Witness for `C4_retry_determinism` at `m = 3` with concrete oracles:
failing twice then succeeding returns the value in 3 calls; failing three
times raises `AllRetriesFailed` with the third exception and `attempts = 3`. -/

theorem C4_retry_determinism_witness :
    retryCall 3 (fun i => if i < 2 then CallResult.caught ⟨str "boom"⟩
      else CallResult.ok (42 : Nat)) = (.ok 42, 3) ∧
    retryCall 3 (fun i => (CallResult.caught ⟨str i.repr⟩ : CallResult Nat)) =
      (.exhausted ⟨some ⟨str "2"⟩, 3⟩, 3) := by
  constructor
  · exact (C4_retry_determinism 3 (by decide)
        (fun i => if i < 2 then CallResult.caught ⟨str "boom"⟩
          else CallResult.ok (42 : Nat))).1 42
      (fun i hi => ⟨⟨str "boom"⟩, by interval_cases i <;> decide⟩)
      (by decide)
  · exact (C4_retry_determinism 3 (by decide)
        (fun i => (CallResult.caught ⟨str i.repr⟩ : CallResult Nat))).2
      (fun i => ⟨str i.repr⟩)
      (fun i hi => by interval_cases i <;> decide)

/-! ## 3. LRUCache (src/axiom/caching/lru_cache.py)

The backing `OrderedDict` is modelled as a list of `(key, value, timestamp)`
entries whose head is the least-recently-used end (`popitem(last=False)` pops
the head, `move_to_end` moves an entry to the back).  `time.time()` is an
explicit `now : ℚ` argument.  Python's `if self.ttl` is falsy both for
`None` and for `0.0`. -/

theorem find?_eq_none_of_not_mem_keys {α : Type} (c : LRUCache α) (k : Str)
    (h : k ∉ c.keys) : c.items.find? (fun e => e.1 = k) = none := by
  rw [List.find?_eq_none]
  intro e he hdec
  have hk : e.1 = k := of_decide_eq_true hdec
  apply h
  have hm : e.1 ∈ c.items.map (fun e => e.1) := List.mem_map_of_mem (fun e => e.1) he
  rw [hk] at hm
  exact hm

/-- A `get` hit moves the found entry to the most-recently-used end and
leaves the capacity unchanged. -/

theorem lru_get_hit_moves {α : Type} (c : LRUCache α) (now : ℚ) (k : Str)
    (v₀ : α) (hv : (c.getInternal now k).1 = some v₀) :
    (∃ ts, (c.getInternal now k).2.items =
      c.items.eraseP (fun e => e.1 = k) ++ [(k, v₀, ts)]) ∧
    (c.getInternal now k).2.capacity = c.capacity := by
  rcases hfind : c.items.find? (fun e => e.1 = k) with _ | ⟨k₀, v₁, ts⟩
  · simp [LRUCache.getInternal, hfind] at hv
  · by_cases hexp : ttlExpired c.ttl now ts
    · simp [LRUCache.getInternal, hfind, hexp] at hv
    · simp only [LRUCache.getInternal, hfind, hexp, Bool.false_eq_true,
        if_false] at hv ⊢
      obtain rfl : v₁ = v₀ := by simpa using hv
      refine ⟨⟨ts, ?_⟩, ?_⟩ <;> simp

/-- C5 (amended). On a full cache, `put` of an absent key pops exactly the
least-recently-used entry (the head of the order), then inserts, so the new
key is present afterwards and the eviction count grows by exactly one.  A
`get` hit on an unexpired key moves that entry to the most-recently-used end;
consequently a put of an absent key performed immediately afterwards on the
full cache evicts some other entry whenever the cache then holds at least two
entries.  (With a one-entry cache the accessed key is itself the
least-recently-used entry and is evicted — see `C5_counterexample` — so the
unqualified "protects it from the next eviction" of the claim is false.)
The claim's capacity-3 scenario put(a),put(b),put(c),get(a),put(d) →
a,c,d present, b evicted — holds; see `C5_lru_eviction_witness`. -/

theorem C5_lru_eviction (α : Type) (c : LRUCache α) (now now' : ℚ)
    (k : Str) (v : α) :
    -- (1) eviction on a full cache
    (k ∉ c.keys → c.items.length = c.capacity →
      (c.putInternal now k v).items = c.items.tail ++ [(k, v, now)] ∧
      k ∈ (c.putInternal now k v).keys ∧
      (c.putInternal now k v).stats.evictions = c.stats.evictions + 1) ∧
    -- (2) a hit moves the entry to the most-recently-used end
    (∀ v₀ : α, (c.getInternal now k).1 = some v₀ →
      ∃ ts, (c.getInternal now k).2.items =
        c.items.eraseP (fun e => e.1 = k) ++ [(k, v₀, ts)]) ∧
    -- (3) protection: an immediately following eviction spares the hit key
    (∀ v₀ : α, (c.getInternal now k).1 = some v₀ →
      ∀ k' v', k' ∉ (c.getInternal now k).2.keys →
        2 ≤ (c.getInternal now k).2.items.length →
        (c.getInternal now k).2.items.length = c.capacity →
        k ∈ ((c.getInternal now k).2.putInternal now' k' v').keys) := by
  refine ⟨?_, ?_, ?_⟩
  · intro hk hfull
    have hfind := find?_eq_none_of_not_mem_keys c k hk
    have hcap : c.items.length ≥ c.capacity := le_of_eq hfull.symm
    simp only [LRUCache.putInternal, hfind, Option.isSome_none, Bool.false_eq_true,
      if_false, if_pos hcap, LRUCache.keys]
    refine ⟨?_, ?_, ?_⟩ <;> simp
  · intro v₀ hv
    exact ((lru_get_hit_moves c now k v₀ hv).1).imp fun ts h => h
  · intro v₀ hv k' v' hk' hlen hfull
    obtain ⟨⟨ts, hitems⟩, hcapeq⟩ := lru_get_hit_moves c now k v₀ hv
    set c' := (c.getInternal now k).2 with hc'
    have hfind' := find?_eq_none_of_not_mem_keys c' k' hk'
    have hcap : c'.items.length ≥ c'.capacity := by
      rw [hfull, hcapeq]
    simp only [LRUCache.putInternal, hfind', Option.isSome_none, Bool.false_eq_true,
      if_false, if_pos hcap, LRUCache.keys]
    rw [hitems] at hlen ⊢
    have hne : c.items.eraseP (fun e => e.1 = k) ≠ [] := by
      intro hnil
      rw [hnil] at hlen
      simp at hlen
    rw [List.tail_append_of_ne_nil hne]
    simp

/-- The claim's scenario cache: capacity 3, put(a), put(b), put(c). -/

theorem C5_lru_eviction_witness :
    c5Final.items = c5AfterGet.items.tail ++ [(str "d", 40, 5)] ∧
    str "d" ∈ c5Final.keys ∧
    c5Final.stats.evictions = c5AfterGet.stats.evictions + 1 ∧
    c5Final.keys = [str "c", str "a", str "d"] ∧
    str "b" ∉ c5Final.keys := by
  have h := (C5_lru_eviction Nat c5AfterGet 5 5 (str "d") 40).1
    (by decide) (by decide)
  exact ⟨h.1, h.2.1, h.2.2, by decide, by decide⟩

/-- C5 (counterexample). With capacity 1, a `get` hit does not protect
the accessed key from the next eviction: after put(a), get(a) is a hit
(marking `a` most-recently-used), yet the immediately following put(b) — an
eviction — removes `a`.  The unqualified protection clause of the claim is
therefore false. -/

theorem C5_counterexample :
    ((((LRUCache.init Nat 1 (by decide) none).putInternal 1 (str "a") 10
      ).getInternal 2 (str "a")).1 = some 10) ∧
    str "a" ∉
      (((((LRUCache.init Nat 1 (by decide) none).putInternal 1 (str "a") 10
        ).getInternal 2 (str "a")).2).putInternal 3 (str "b") 20).keys := by
  refine ⟨by decide, by decide⟩

/-! ## 4. StateTracker (src/axiom/state_tracker.py)

The two SQLite tables are modelled as in-memory lists in insertion (rowid)
order: `files` for file lifecycle records and `history` for conversation
history.  `datetime.now()` is an explicit `now : Nat` argument.  SQL
`UPDATE ... WHERE file_path = ?` maps every matching row and leaves the rest
unchanged; `SELECT ... ORDER BY created_at DESC LIMIT ?` is modelled as a
`mergeSort` by descending `created_at` followed by `take`. -/

theorem map_update_eq_self (l : List FileRecord) (p : Str)
    (f : FileRecord → FileRecord) (h : ∀ r ∈ l, r.file_path ≠ p) :
    l.map (fun r => if r.file_path = p then f r else r) = l := by
  induction l with
  | nil => rfl
  | cons a l ih =>
      simp only [List.map_cons, if_neg (h a (List.mem_cons_self a l)),
        List.cons.injEq, true_and]
      exact ih (fun r hr => h r (List.mem_cons_of_mem a hr))

/-- C10 (confirmed). On a path with no file record, each of
`record_processing_start`, `record_processing_complete` and
`record_processing_failed` returns normally (the SQL `UPDATE` matches zero
rows), creates no record and leaves both tables unchanged, and
`get_file_status` returns `none` rather than raising. -/

theorem C10_missing_file_noop (t : StateTracker) (p : Str) (now : Nat)
    (metadataJson : Option Str) (errorMessage : Str)
    (h : p ∉ t.files.map (fun r => r.file_path)) :
    t.record_processing_start p now = t ∧
    t.record_processing_complete p metadataJson now = t ∧
    t.record_processing_failed p errorMessage now = t ∧
    t.get_file_status p = none := by
  have hne : ∀ r ∈ t.files, r.file_path ≠ p := by
    intro r hr hrp
    exact h (hrp ▸ List.mem_map_of_mem (fun r => r.file_path) hr)
  have hfind : t.files.find? (fun r => r.file_path = p) = none := by
    rw [List.find?_eq_none]
    intro r hr hdec
    exact hne r hr (of_decide_eq_true hdec)
  refine ⟨?_, ?_, ?_, ?_⟩
  · simp [StateTracker.record_processing_start, map_update_eq_self _ _ _ hne]
  · simp [StateTracker.record_processing_complete, map_update_eq_self _ _ _ hne]
  · simp [StateTracker.record_processing_failed, map_update_eq_self _ _ _ hne]
  · simp [StateTracker.get_file_status, hfind]

/-- Witness for `C10_missing_file_noop`: a one-record table, probed at a
different path. -/

theorem C10_missing_file_noop_witness :
    let t : StateTracker :=
      ⟨[⟨str "a.txt", str "h", .seen, 0, 0, none, none⟩], []⟩
    t.record_processing_start (str "b.txt") 5 = t ∧
    t.record_processing_complete (str "b.txt") none 5 = t ∧
    t.record_processing_failed (str "b.txt") (str "e") 5 = t ∧
    t.get_file_status (str "b.txt") = none := by
  exact C10_missing_file_noop _ (str "b.txt") 5 none (str "e") (by decide)

theorem hDescLe_trans : ∀ a b c, hDescLe a b = true → hDescLe b c = true →
    hDescLe a c = true := by
  intro a b c h1 h2
  simp only [hDescLe, decide_eq_true_eq] at *
  omega

theorem hDescLe_total : ∀ a b, (hDescLe a b || hDescLe b a) = true := by
  intro a b
  simp only [hDescLe, Bool.or_eq_true, decide_eq_true_eq]
  omega

/-- Sorting a strictly-ascending list by descending timestamps (the model of
`ORDER BY created_at DESC` applied to rows inserted in chronological order
with distinct timestamps) yields exactly the reversed list. -/

theorem mergeSort_desc_of_strict_asc (f : List HistoryEntry)
    (hfstrict : f.Pairwise (fun a b => a.created_at < b.created_at)) :
    f.mergeSort hDescLe = f.reverse := by
  have hperm : (f.mergeSort hDescLe).Perm f.reverse :=
    (List.mergeSort_perm f hDescLe).trans (List.reverse_perm f).symm
  have hms : (f.mergeSort hDescLe).Pairwise (fun a b => hDescLe a b = true) :=
    List.sorted_mergeSort hDescLe_trans hDescLe_total f
  have hne_f : f.Pairwise (fun a b => a.created_at ≠ b.created_at) :=
    hfstrict.imp (fun h => Nat.ne_of_lt h)
  have hne_ms : (f.mergeSort hDescLe).Pairwise
      (fun a b => a.created_at ≠ b.created_at) :=
    (List.Perm.pairwise_iff (fun h => h.symm)
      (List.mergeSort_perm f hDescLe)).mpr hne_f
  have hstrict_ms : (f.mergeSort hDescLe).Pairwise
      (fun a b => b.created_at < a.created_at) :=
    (hms.and hne_ms).imp (fun h => by
      have h1 : hDescLe _ _ = true := h.1
      simp only [hDescLe, decide_eq_true_eq] at h1
      omega)
  have hstrict_rev : (f.reverse).Pairwise
      (fun a b => b.created_at < a.created_at) :=
    List.pairwise_reverse.mpr hfstrict
  haveI : IsAntisymm HistoryEntry (fun a b => b.created_at < a.created_at) :=
    ⟨fun a b h1 h2 => absurd h2 (Nat.lt_asymm h1)⟩
  exact List.eq_of_perm_of_sorted hperm hstrict_ms hstrict_rev

/-- C9 (confirmed). When history rows carry strictly increasing creation
times (they are appended with `datetime.now()`), `get_query_history` returns
the `limit` most recently created entries of the session in chronological
oldest-first order — the reversal of the newest-first rows delivered by the
underlying `ORDER BY created_at DESC LIMIT ?` query. -/

theorem C9_history_order (t : StateTracker) (sid : Str) (limit : Nat)
    (hstrict : t.history.Pairwise (fun a b => a.created_at < b.created_at)) :
    t.get_query_history sid limit =
      (t.history.filter (fun e => e.session_id = sid)).drop
        ((t.history.filter (fun e => e.session_id = sid)).length - limit) ∧
    (t.get_query_history sid limit).Pairwise
      (fun a b => a.created_at < b.created_at) := by
  have hfstrict : (t.history.filter (fun e => e.session_id = sid)).Pairwise
      (fun a b => a.created_at < b.created_at) := hstrict.filter _
  have heq : t.get_query_history sid limit =
      (t.history.filter (fun e => e.session_id = sid)).drop
        ((t.history.filter (fun e => e.session_id = sid)).length - limit) := by
    unfold StateTracker.get_query_history
    rw [mergeSort_desc_of_strict_asc _ hfstrict, List.take_reverse,
      List.reverse_reverse]
  refine ⟨heq, ?_⟩
  rw [heq]
  exact hfstrict.sublist (List.drop_sublist _ _)

/-- A four-row history over two sessions, timestamps 1..4. -/

theorem C9_history_order_witness :
    c9Tracker.history.Pairwise (fun a b => a.created_at < b.created_at) ∧
    c9Tracker.get_query_history (str "s1") 2 =
      [⟨str "s1", str "q2", str "a2", 2⟩, ⟨str "s1", str "q4", str "a4", 4⟩] := by
  refine ⟨by decide, ?_⟩
  rw [(C9_history_order c9Tracker (str "s1") 2 (by decide)).1]
  decide

/-! ## 5. LLMSynthesizer (src/axiom/core/llm_synthesizer.py)

The tokenizer (tiktoken, or the `split()` word-count fallback) is an oracle
`countTokens : Str → Nat`; the language-model provider is an oracle returning
either an answer, an `AllRetriesFailed` exhaustion (raised by the retry
wrapper inside the provider and caught by `synthesize`), or any other
exception (uncaught, it propagates).  Python's `"\n".join` is `pyJoin`. -/

/-- Python's `sep.join(parts)`. -/

theorem infix_of_mem_pyJoin (sep : Str) :
    ∀ (parts : List Str) (p : Str), p ∈ parts → p <:+: pyJoin sep parts := by
  intro parts
  induction parts with
  | nil => intro p hp; cases hp
  | cons x rest ih =>
      intro p hp
      cases rest with
      | nil =>
          have hx : p = x := by simpa using hp
          subst hx
          simp only [pyJoin]
          exact List.infix_rfl
      | cons y t =>
          rcases List.mem_cons.mp hp with rfl | hmem
          · exact ⟨[], sep ++ pyJoin sep (y :: t), by
              simp [pyJoin, List.append_assoc]⟩
          · have h1 := ih p hmem
            have h2 : pyJoin sep (y :: t) <:+: pyJoin sep (x :: y :: t) :=
              ⟨x ++ sep, [], by simp [pyJoin, List.append_assoc]⟩
            exact h1.trans h2

theorem formatLoop_nil_of_all_over (countTokens : Str → Nat)
    (entries : List (Nat × DocumentChunk)) (total : Nat)
    (h : ∀ p ∈ entries, TOKEN_BUDGET < countTokens (mkContextBlock p.1 p.2)) :
    formatLoop countTokens entries total = [] := by
  cases entries with
  | nil => rfl
  | cons p rest =>
      obtain ⟨i, c⟩ := p
      have hp : TOKEN_BUDGET < countTokens (mkContextBlock i c) :=
        h (i, c) (List.mem_cons_self _ _)
      simp only [formatLoop]
      rw [if_pos (by omega)]

theorem formatLoop_is_prefix_map (countTokens : Str → Nat) :
    ∀ (entries : List (Nat × DocumentChunk)) (total : Nat),
      ∃ n, formatLoop countTokens entries total =
        (entries.take n).map (fun p => mkContextBlock p.1 p.2) := by
  intro entries
  induction entries with
  | nil => exact fun _ => ⟨0, rfl⟩
  | cons p rest ih =>
      intro total
      obtain ⟨i, c⟩ := p
      simp only [formatLoop]
      by_cases hover : TOKEN_BUDGET < total + countTokens (mkContextBlock i c)
      · exact ⟨0, by rw [if_pos hover]; rfl⟩
      · obtain ⟨m, hm⟩ := ih (total + countTokens (mkContextBlock i c))
        exact ⟨m + 1, by rw [if_neg hover, hm]; rfl⟩

/-- A chunk's full text is embedded verbatim in its context block. -/

theorem text_infix_mkContextBlock (i : Nat) (c : DocumentChunk) :
    c.text <:+: mkContextBlock i c := by
  simp only [mkContextBlock]
  exact List.infix_append _ _ _

/-- C7 (amended). If no fragment's citation block fits within the token
budget, `_format_context_for_prompt` returns the **empty string** — not a
"no context provided" sentinel (that sentinel exists only in the separate
`app.py` pipeline, for the zero-retrieved-documents case).  In every case
the returned context is the `"\n\n"`-join of the complete blocks of a prefix
of the ranked fragments, and every block embeds its fragment's text whole —
a fragment is never truncated mid-text. -/

theorem C7_context_assembly (countTokens : Str → Nat)
    (chunks : List DocumentChunk) :
    ((∀ p ∈ List.enumFrom 1 chunks,
        TOKEN_BUDGET < countTokens (mkContextBlock p.1 p.2)) →
      formatContextForPrompt countTokens chunks = []) ∧
    (∃ n, formatContextForPrompt countTokens chunks =
      pyJoin (str "\n\n")
        (((List.enumFrom 1 chunks).take n).map (fun p => mkContextBlock p.1 p.2))) ∧
    (∀ (i : Nat) (c : DocumentChunk), c.text <:+: mkContextBlock i c) := by
  refine ⟨?_, ?_, text_infix_mkContextBlock⟩
  · intro h
    unfold formatContextForPrompt
    rw [formatLoop_nil_of_all_over countTokens _ 0 h]
    rfl
  · obtain ⟨n, hn⟩ := formatLoop_is_prefix_map countTokens (List.enumFrom 1 chunks) 0
    exact ⟨n, by unfold formatContextForPrompt; rw [hn]⟩

/-- The single over-budget chunk used to exercise the zero-fit branch. -/

theorem c7OverBudgetHyp (n : Nat) (hn : TOKEN_BUDGET < n) :
    ∀ p ∈ List.enumFrom 1 [(⟨List.replicate n 'a', []⟩ : DocumentChunk)],
      TOKEN_BUDGET < (fun s : Str => s.length) (mkContextBlock p.1 p.2) := by
  intro p hp
  have hpe : p = (1, (⟨List.replicate n 'a', []⟩ : DocumentChunk)) := by
    simpa [List.enumFrom] using hp
  subst hpe
  have h1 := (text_infix_mkContextBlock 1 ⟨List.replicate n 'a', []⟩).length_le
  simp only [List.length_replicate] at h1
  simpa using lt_of_lt_of_le hn h1

/-- Witness for `C7_context_assembly`: a single 3500-character fragment whose
block exceeds the 3000-token budget under the length token counter — the
assembled context is the empty string. -/

theorem C7_context_assembly_witness :
    formatContextForPrompt (fun s => s.length) [⟨List.replicate 3500 'a', []⟩] = [] :=
  (C7_context_assembly (fun s => s.length) [⟨List.replicate 3500 'a', []⟩]).1
    (c7OverBudgetHyp 3500 (by decide))

/-- C7 (counterexample). A ranked list consisting of one 3101-character
fragment, under the length token oracle: its block exceeds the budget of
3000, so zero fragments fit, and `_format_context_for_prompt` returns the
empty string — not the "No context provided." sentinel the claim promises. -/

theorem C7_counterexample :
    formatContextForPrompt (fun s => s.length) [⟨List.replicate 3101 'a', []⟩] = [] ∧
    str "No context provided." ≠ ([] : Str) := by
  constructor
  · unfold formatContextForPrompt
    rw [formatLoop_nil_of_all_over (fun s => s.length) _ 0 (c7OverBudgetHyp 3101 (by decide))]
    rfl
  · decide

/-- Every degraded answer carries the "DEGRADED MODE" label. -/

theorem degraded_label_in_answer (query : Str) (chunks : List DocumentChunk) :
    str "DEGRADED MODE" <:+: generateDegradedAnswer query chunks := by
  have hmem : degradedBanner ∈ degradedParts query chunks := by
    unfold degradedParts
    exact List.mem_cons_self _ _
  exact (by decide : str "DEGRADED MODE" <:+: degradedBanner).trans
    (infix_of_mem_pyJoin (str "\n") _ _ hmem)

/-- C6 (amended). When synthesis falls back to degraded mode while
history tracking is enabled (state tracker present, non-empty session id),
the degraded response **is** persisted to conversation history, through the
very same unflagged `add_query_to_history` insert used for normal
synthesized answers: the stored entry carries no distinguishing flag — the
only marker is the "DEGRADED MODE" banner embedded in the answer text
itself. -/

theorem C6_degraded_persistence (provider : Str → Str → Str → ProviderResult)
    (countTokens : Str → Nat) (t : StateTracker) (sid : Str) (now : Nat)
    (query : Str) (chunks : List DocumentChunk)
    (hfail : ∀ q c h, ∃ e, provider q c h = ProviderResult.retriesExhausted e)
    (hchunks : chunks ≠ []) (hsid : sid.isEmpty = false) :
    LLMSynthesizer.synthesize provider countTokens (some t) (some sid) now
        query chunks =
      .ok (generateDegradedAnswer query chunks,
        some (t.add_query_to_history sid query
          (generateDegradedAnswer query chunks) now)) ∧
    str "DEGRADED MODE" <:+: generateDegradedAnswer query chunks := by
  constructor
  · obtain ⟨e, he⟩ := hfail query (formatContextForPrompt countTokens chunks)
      (formatHistoryForPrompt (t.get_query_history sid 5))
    simp only [LLMSynthesizer.synthesize, if_neg hchunks, hsid,
      Bool.false_eq_true, if_false, he]
  · exact degraded_label_in_answer query chunks

/-- Witness for `C6_degraded_persistence`: one chunk, always-exhausted
provider, session "s". -/

theorem C6_degraded_persistence_witness :
    LLMSynthesizer.synthesize (fun _ _ _ => .retriesExhausted ⟨none, 3⟩)
        (fun s => s.length) (some ⟨[], []⟩) (some (str "s")) 7 (str "q")
        [⟨str "fact", []⟩] =
      .ok (generateDegradedAnswer (str "q") [⟨str "fact", []⟩],
        some (StateTracker.add_query_to_history ⟨[], []⟩ (str "s") (str "q")
          (generateDegradedAnswer (str "q") [⟨str "fact", []⟩]) 7)) ∧
    str "DEGRADED MODE" <:+: generateDegradedAnswer (str "q") [⟨str "fact", []⟩] :=
  C6_degraded_persistence (fun _ _ _ => .retriesExhausted ⟨none, 3⟩)
    (fun s => s.length) ⟨[], []⟩ (str "s") 7 (str "q") [⟨str "fact", []⟩]
    (fun _ _ _ => ⟨⟨none, 3⟩, rfl⟩) (by decide) (by decide)

/-- The degraded answer of the C6 counterexample runs. -/

theorem C6_counterexample :
    LLMSynthesizer.synthesize (fun _ _ _ => .retriesExhausted ⟨none, 3⟩)
        (fun s => s.length) (some ⟨[], []⟩) (some (str "s")) 7 (str "q")
        [⟨str "fact", []⟩] =
      LLMSynthesizer.synthesize (fun _ _ _ => .ok c6Degraded)
        (fun s => s.length) (some ⟨[], []⟩) (some (str "s")) 7 (str "q")
        [⟨str "fact", []⟩] ∧
    LLMSynthesizer.synthesize (fun _ _ _ => .retriesExhausted ⟨none, 3⟩)
        (fun s => s.length) (some ⟨[], []⟩) (some (str "s")) 7 (str "q")
        [⟨str "fact", []⟩] =
      .ok (c6Degraded, some ⟨[], [⟨str "s", str "q", c6Degraded, 7⟩]⟩) := by
  constructor <;> rfl

/-! ## 6. QueryEngine.query (src/axiom/core/query_engine.py) and
ChromaVectorStore.add (src/axiom/core/vector_store.py)

`query` is modelled with its collaborators as oracles; alongside the result
it returns the list of pipeline stages whose external calls were actually
reached (embedding, retrieval, synthesis), so "rejected before any work"
is expressible.  The `PermissionError` and `ValueError` raised before the
`try:` block propagate to the caller (they are not converted into the
apology response); any exception raised inside the `try:` block is caught
and converted into the safe apology `QueryResult`. -/

/-- Python `str.strip()` whitespace, restricted to the ASCII whitespace
characters (space, tab, newline, carriage return, vertical tab, form feed). -/

theorem pyStrip_eq_nil_of_all_space (question : Str)
    (h : ∀ ch ∈ question, pyIsSpace ch = true) : pyStrip question = [] := by
  unfold pyStrip
  rw [List.dropWhile_eq_nil_iff.mpr h]
  rfl

/-- C8 (confirmed). A whitespace-only (or empty) question makes `query`
raise its validation error before the embedding, retrieval or synthesis
calls are reached, and the error propagates (it is raised before the
`try:` block, so it is not converted into the apology response); and
`ChromaVectorStore.add` on a non-empty chunk list whose length differs from
the embedding list raises a validation error with the store untouched. -/

theorem C8_validation (requireAuth apiKeyValid : Bool)
    (embedQuestion : Str → List ℚ)
    (storeQuery : List ℚ → Nat → List DocumentChunk)
    (provider : Str → Str → Str → ProviderResult) (countTokens : Str → Nat)
    (tracker : Option StateTracker) (sessionId : Option Str) (now : Nat)
    (maxContextChunks : Nat) (question : Str) (topK : Option Nat) :
    ((requireAuth && !apiKeyValid) = false →
      (∀ ch ∈ question, pyIsSpace ch = true) →
      QueryEngine.query requireAuth apiKeyValid embedQuestion storeQuery
          provider countTokens tracker sessionId now maxContextChunks
          question topK =
        (.error (.validationError (str "Question cannot be empty")), [])) ∧
    (∀ (stored : List StoredDoc) (chunks : List DocumentChunk)
        (embeddings : List (List ℚ)), chunks ≠ [] →
      chunks.length ≠ embeddings.length →
      ChromaVectorStore.add stored chunks embeddings =
        (.error ⟨str "The number of chunks must match the number of embeddings."⟩,
         stored)) := by
  constructor
  · intro hauth hwhite
    have hstrip := pyStrip_eq_nil_of_all_space question hwhite
    simp [QueryEngine.query, hauth, hstrip]
  · intro stored chunks embeddings hne hlen
    simp [ChromaVectorStore.add, hne, hlen]

/-- Witness for `C8_validation`: the question `" \t\n"` and a 1-chunk /
0-embedding `add`. -/

theorem C8_validation_witness :
    QueryEngine.query false false (fun _ => []) (fun _ _ => [])
        (fun _ _ _ => .ok []) (fun _ => 0) none none 0 5 (str " \t\n") none =
      (.error (.validationError (str "Question cannot be empty")), []) ∧
    ChromaVectorStore.add [] [⟨str "x", []⟩] [] =
      (.error ⟨str "The number of chunks must match the number of embeddings."⟩,
       []) := by
  have h := C8_validation false false (fun _ => []) (fun _ _ => [])
    (fun _ _ _ => .ok []) (fun _ => 0) none none 0 5 (str " \t\n") none
  exact ⟨h.1 (by decide) (by decide), h.2 [] [⟨str "x", []⟩] [] (by decide) (by decide)⟩

/-- The degraded answer embeds the first `min(500, length)` characters of the
top retrieved fragment (whole text when it is at most 500 characters long;
longer texts are cut at 500 and suffixed with `"..."`). -/

theorem degraded_take500_in_answer (query : Str) (c0 : DocumentChunk)
    (rest : List DocumentChunk) :
    c0.text.take 500 <:+: generateDegradedAnswer query (c0 :: rest) := by
  have hpart : (if 500 < c0.text.length then c0.text.take 500 ++ str "..."
      else c0.text) ∈ degradedParts query (c0 :: rest) := by
    unfold degradedParts
    apply List.mem_append.mpr
    left
    apply List.mem_append.mpr
    right
    unfold degradedExcerptBlocks
    apply List.mem_flatMap.mpr
    refine ⟨(1, c0), ?_, by simp⟩
    simp [List.take_succ_cons, List.enumFrom]
  have hmid := infix_of_mem_pyJoin (str "\n") _ _ hpart
  by_cases hlen : 500 < c0.text.length
  · rw [if_pos hlen] at hmid
    have hpre : c0.text.take 500 <:+: c0.text.take 500 ++ str "..." :=
      ⟨[], str "...", by simp⟩
    exact hpre.trans hmid
  · rw [if_neg hlen] at hmid
    rw [List.take_of_length_le (by omega)]
    exact hmid

/-- When every provider call fails with retries-exhausted and at least one
chunk was retrieved, `synthesize` returns (never raises) the degraded
answer. -/

theorem synthesize_degraded_of_always_exhausted
    (provider : Str → Str → Str → ProviderResult) (countTokens : Str → Nat)
    (tracker : Option StateTracker) (sessionId : Option Str) (now : Nat)
    (query : Str) (chunks : List DocumentChunk)
    (hfail : ∀ q c h, ∃ e, provider q c h = ProviderResult.retriesExhausted e)
    (hchunks : chunks ≠ []) :
    ∃ tr', LLMSynthesizer.synthesize provider countTokens tracker sessionId
        now query chunks = .ok (generateDegradedAnswer query chunks, tr') := by
  rcases tracker with _ | t
  · obtain ⟨e, he⟩ := hfail query (formatContextForPrompt countTokens chunks) []
    refine ⟨none, ?_⟩
    simp only [LLMSynthesizer.synthesize, if_neg hchunks, he]
  · rcases sessionId with _ | sid
    · obtain ⟨e, he⟩ := hfail query (formatContextForPrompt countTokens chunks) []
      refine ⟨some t, ?_⟩
      simp only [LLMSynthesizer.synthesize, if_neg hchunks, he]
    · by_cases hsid : sid.isEmpty
      · obtain ⟨e, he⟩ := hfail query (formatContextForPrompt countTokens chunks) []
        refine ⟨some t, ?_⟩
        simp only [LLMSynthesizer.synthesize, if_neg hchunks, hsid, if_true, he]
      · obtain ⟨e, he⟩ := hfail query (formatContextForPrompt countTokens chunks)
          (formatHistoryForPrompt (t.get_query_history sid 5))
        have hsid' : sid.isEmpty = false := by simpa using hsid
        refine ⟨some (t.add_query_to_history sid query
          (generateDegradedAnswer query chunks) now), ?_⟩
        simp only [LLMSynthesizer.synthesize, if_neg hchunks, hsid',
          Bool.false_eq_true, if_false, he]

/-- C3 (amended). If every language-model call fails with the
retries-exhausted condition and retrieval yields at least one fragment,
`query()` returns normally (no exception reaches the caller) with the
degraded answer, which carries the "DEGRADED MODE" label and contains the
first `min(500, length)` characters of the top retrieved fragment verbatim
(the whole fragment text when it is at most 500 characters; the
`_generate_degraded_answer` loop truncates each shown excerpt at 500
characters, so a longer fragment is not contained in full — see
`C3_counterexample`). -/

theorem C3_degraded_mode (requireAuth apiKeyValid : Bool)
    (embedQuestion : Str → List ℚ)
    (storeQuery : List ℚ → Nat → List DocumentChunk)
    (provider : Str → Str → Str → ProviderResult) (countTokens : Str → Nat)
    (tracker : Option StateTracker) (sessionId : Option Str) (now : Nat)
    (maxContextChunks : Nat) (question : Str) (topK : Option Nat)
    (hauth : (requireAuth && !apiKeyValid) = false)
    (hq : (pyStrip question).isEmpty = false)
    (hfail : ∀ q c h, ∃ e, provider q c h = ProviderResult.retriesExhausted e)
    (c0 : DocumentChunk) (rest : List DocumentChunk)
    (hret : storeQuery (embedQuestion question)
        (effectiveTopK topK maxContextChunks) = c0 :: rest) :
    (∃ tr', QueryEngine.query requireAuth apiKeyValid embedQuestion storeQuery
        provider countTokens tracker sessionId now maxContextChunks question
        topK =
      (.ok (⟨question, generateDegradedAnswer question (c0 :: rest), c0 :: rest⟩,
        tr'), [.embedding, .retrieval, .synthesis])) ∧
    str "DEGRADED MODE" <:+: generateDegradedAnswer question (c0 :: rest) ∧
    c0.text.take 500 <:+: generateDegradedAnswer question (c0 :: rest) := by
  refine ⟨?_, degraded_label_in_answer question (c0 :: rest),
    degraded_take500_in_answer question c0 rest⟩
  obtain ⟨tr', hsynth⟩ := synthesize_degraded_of_always_exhausted provider
    countTokens tracker sessionId now question (c0 :: rest) hfail
    (List.cons_ne_nil c0 rest)
  refine ⟨tr', ?_⟩
  simp only [QueryEngine.query, hauth, Bool.false_eq_true, if_false, hq,
    hret, hsynth]

/-- Witness for `C3_degraded_mode`: question "q", one short retrieved
fragment, always-failing provider. -/

theorem C3_degraded_mode_witness :
    (∃ tr', QueryEngine.query false false (fun _ => []) (fun _ _ => [⟨str "fact", []⟩])
        (fun _ _ _ => .retriesExhausted ⟨none, 3⟩) (fun s => s.length)
        none none 0 5 (str "q") none =
      (.ok (⟨str "q", generateDegradedAnswer (str "q") [⟨str "fact", []⟩],
        [⟨str "fact", []⟩]⟩, tr'), [.embedding, .retrieval, .synthesis])) ∧
    str "DEGRADED MODE" <:+:
      generateDegradedAnswer (str "q") [⟨str "fact", []⟩] ∧
    (⟨str "fact", []⟩ : DocumentChunk).text.take 500 <:+:
      generateDegradedAnswer (str "q") [⟨str "fact", []⟩] :=
  C3_degraded_mode false false (fun _ => []) (fun _ _ => [⟨str "fact", []⟩])
    (fun _ _ _ => .retriesExhausted ⟨none, 3⟩) (fun s => s.length)
    none none 0 5 (str "q") none (by decide) (by decide)
    (fun _ _ _ => ⟨⟨none, 3⟩, rfl⟩) ⟨str "fact", []⟩ [] rfl

/-- Character occurrences across a Python-style join: the separator is
inserted between consecutive parts. -/

theorem count_pyJoin (c : Char) (sep : Str) :
    ∀ parts : List Str, List.count c (pyJoin sep parts) =
      (parts.map (List.count c)).sum + (parts.length - 1) * List.count c sep := by
  intro parts
  induction parts with
  | nil => simp [pyJoin]
  | cons x rest ih =>
      cases rest with
      | nil => simp [pyJoin]
      | cons y t =>
          simp only [pyJoin, List.count_append, List.map_cons, List.sum_cons,
            List.length_cons, Nat.add_sub_cancel] at ih ⊢
          rw [ih]
          ring

/-- The degraded excerpt parts for a single retrieved chunk, by unfolding
the loop once. -/

theorem degradedExcerptBlocks_singleton (c : DocumentChunk) :
    degradedExcerptBlocks [c] =
      [str "**Excerpt " ++ str (Nat.repr 1) ++ str "** (from " ++
        (c.metadata.getD (str "source_file_path")
          (.s (str "Unknown source"))).pyStr ++ str "):",
       if 500 < c.text.length then c.text.take 500 ++ str "..." else c.text,
       []] := rfl

/-- The single retrieved fragment of the C3 counterexample run: 501 copies
of `'Z'`, a character that occurs nowhere in the fixed degraded-answer
text. -/

theorem c3_truncated_body :
    (if 500 < c3BigChunk.text.length then c3BigChunk.text.take 500 ++ str "..."
     else c3BigChunk.text) = List.replicate 500 'Z' ++ str "..." := by
  rw [if_pos]
  · show (List.replicate 501 'Z').take 500 ++ str "..." = _
    rw [List.take_replicate]
    norm_num
  · show 500 < (List.replicate 501 'Z').length
    rw [List.length_replicate]
    norm_num

/-- The degraded answer shows only the first 500 characters of the oversized
fragment: it contains exactly 500 `'Z'`s. -/

theorem c3Answer_count : List.count 'Z' c3Answer = 500 := by
  have hsep : List.count 'Z' (str "\n") = 0 := by decide
  have l1 : List.count 'Z' degradedBanner = 0 := by decide
  have l2 : List.count 'Z' (str "**Your Question**: ") = 0 := by decide
  have l2b : List.count 'Z' (str "q") = 0 := by decide
  have l3 : List.count 'Z' (str "**Retrieved Document Excerpts** (unprocessed):") = 0 := by
    decide
  have l4 : List.count 'Z' (str "**Excerpt ") = 0 := by decide
  have l5 : List.count 'Z' (str (Nat.repr 1)) = 0 := by decide
  have l6 : List.count 'Z' (str "** (from ") = 0 := by decide
  have l7 : List.count 'Z' (str "Unknown source") = 0 := by decide
  have l8 : List.count 'Z' (str "):") = 0 := by decide
  have l9 : List.count 'Z' (str "---") = 0 := by decide
  have l10 : List.count 'Z'
      (str "ðŸ’¡ **Note**: These are raw document excerpts. Normal service will provide a synthesized answer.") = 0 := by
    decide
  have l11 : List.count 'Z'
      (str "Please try again in a few moments or contact support if the issue persists.") = 0 := by
    decide
  have l12 : List.count 'Z' (str "...") = 0 := by decide
  have hrep : List.count 'Z' (List.replicate 500 'Z') = 500 :=
    List.count_replicate_self 'Z' 500
  unfold c3Answer generateDegradedAnswer
  rw [count_pyJoin]
  unfold degradedParts
  rw [degradedExcerptBlocks_singleton c3BigChunk, c3_truncated_body]
  have hmeta : ((c3BigChunk.metadata.getD (str "source_file_path")
      (.s (str "Unknown source"))).pyStr) = str "Unknown source" := rfl
  rw [hmeta]
  simp only [List.cons_append, List.nil_append, List.map_cons, List.map_nil,
    List.sum_cons, List.sum_nil, List.length_cons, List.length_nil,
    List.count_append, List.count_nil, hsep, l1, l2, l2b, l3, l4, l5, l6, l7,
    l8, l9, l10, l11, l12, hrep]
  omega

/-- C3 (counterexample). With a single retrieved fragment of 501 `'Z'`s
and an always-exhausted provider, `query()` does return the degraded answer,
but that answer does **not** contain the text of any retrieved fragment: the
excerpt loop truncates at 500 characters, so the answer holds exactly 500
`'Z'`s while the fragment text has 501 — the fragment text cannot be a
substring. -/

theorem C3_counterexample :
    (QueryEngine.query false false (fun _ => []) (fun _ _ => [c3BigChunk])
        (fun _ _ _ => .retriesExhausted ⟨none, 3⟩) (fun s => s.length)
        none none 0 5 (str "q") none).1 =
      .ok (⟨str "q", c3Answer, [c3BigChunk]⟩, none) ∧
    ¬ c3BigChunk.text <:+: c3Answer := by
  constructor
  · rfl
  · intro h
    have hle : List.count 'Z' c3BigChunk.text ≤ List.count 'Z' c3Answer :=
      h.sublist.count_le 'Z'
    have h501 : List.count 'Z' c3BigChunk.text = 501 := by
      show List.count 'Z' (List.replicate 501 'Z') = 501
      exact List.count_replicate_self 'Z' 501
    rw [c3Answer_count, h501] at hle
    omega

/-! ## 7. EnsembleRetriever (src/app.py)

The custom `EnsembleRetriever.get_relevant_documents`: each retriever's
result list is zipped with its weight into `pairs` (the object fields
`self.retrievers`/`self.weights`); Python's builtin `hash` is an oracle
`hashFn`; float scores are modelled as exact rationals.  The `all_docs`
dict is an association list in first-insertion order, with in-place
overwrite, exactly as CPython dicts behave; `sorted(..., key=score,
reverse=True)` is a stable descending `mergeSort`. -/

/-- A LangChain `Document` as used by app.py. -/

theorem fold_nested_eq_flat (hashFn : Str → Int)
    (pairs : List (List LCDocument × ℚ)) :
    ∀ init, pairs.foldl (fun acc rw =>
        (List.enumFrom 0 rw.1).foldl (fun acc p =>
          fuseStep acc (docKey hashFn p.2, p.2, rw.2 * (1 / (p.1 + 1 : ℚ)))) acc)
        init =
      (weightedCandidates hashFn pairs).foldl fuseStep init := by
  induction pairs with
  | nil => intro init; rfl
  | cons rw ps ih =>
      intro init
      simp only [List.foldl_cons, weightedCandidates, List.flatMap_cons,
        List.foldl_append, List.foldl_map]
      exact ih _

theorem replaceEntry_keys (l : List FusedEntry) (c : FusedEntry) :
    (replaceEntry l c).map (fun e => e.1) = l.map (fun e => e.1) := by
  induction l with
  | nil => rfl
  | cons a rest ih =>
      by_cases hac : a.1 = c.1
      · simp [replaceEntry, hac]
      · simp [replaceEntry, hac, ih]

theorem replaceEntry_mem (l : List FusedEntry) (c : FusedEntry) :
    ∀ e ∈ replaceEntry l c, e ∈ l ∨ e = c := by
  induction l with
  | nil => intro e he; cases he
  | cons a rest ih =>
      intro e he
      by_cases hac : a.1 = c.1
      · rw [replaceEntry, if_pos hac] at he
        rcases List.mem_cons.mp he with rfl | hmem
        · exact Or.inr rfl
        · exact Or.inl (List.mem_cons_of_mem a hmem)
      · rw [replaceEntry, if_neg hac] at he
        rcases List.mem_cons.mp he with rfl | hmem
        · exact Or.inl (List.mem_cons_self _ _)
        · rcases ih e hmem with h | h
          · exact Or.inl (List.mem_cons_of_mem a h)
          · exact Or.inr h

theorem find?_replaceEntry_self (l : List FusedEntry) (c e : FusedEntry)
    (h : l.find? (fun x => x.1 = c.1) = some e) :
    (replaceEntry l c).find? (fun x => x.1 = c.1) = some c := by
  induction l with
  | nil => cases h
  | cons a rest ih =>
      by_cases hac : a.1 = c.1
      · rw [replaceEntry, if_pos hac]
        simp [List.find?_cons]
      · rw [replaceEntry, if_neg hac]
        rw [List.find?_cons_of_neg _ (by simpa using hac)] at h ⊢
        exact ih h

theorem find?_replaceEntry_ne (l : List FusedEntry) (c : FusedEntry)
    (k : DocKey) (hk : k ≠ c.1) :
    (replaceEntry l c).find? (fun x => x.1 = k) =
      l.find? (fun x => x.1 = k) := by
  induction l with
  | nil => rfl
  | cons a rest ih =>
      by_cases hac : a.1 = c.1
      · rw [replaceEntry, if_pos hac]
        rw [List.find?_cons_of_neg _ (by
            simp only [decide_eq_true_eq]
            exact fun h => hk h.symm),
          List.find?_cons_of_neg _ (by
            simp only [decide_eq_true_eq]
            rw [hac]
            exact fun h => hk h.symm)]
      · rw [replaceEntry, if_neg hac]
        by_cases hak : a.1 = k
        · rw [List.find?_cons_of_pos _ (by simpa using hak),
            List.find?_cons_of_pos _ (by simpa using hak)]
        · rw [List.find?_cons_of_neg _ (by simpa using hak),
            List.find?_cons_of_neg _ (by simpa using hak)]
          exact ih

theorem max?_concat (l : List ℚ) (x : ℚ) :
    (l ++ [x]).max? = some (match l.max? with
      | none => x
      | some m => max m x) := by
  cases l with
  | nil => rfl
  | cons a as => simp [List.max?, List.foldl_append]

theorem fuseStep_eq_append (acc : List FusedEntry) (c : FusedEntry)
    (h : acc.find? (fun x => x.1 = c.1) = none) :
    fuseStep acc c = acc ++ [c] := by
  unfold fuseStep
  rw [h]

theorem fuseStep_eq_replace (acc : List FusedEntry) (c e : FusedEntry)
    (h : acc.find? (fun x => x.1 = c.1) = some e) (hgt : e.2.2 < c.2.2) :
    fuseStep acc c = replaceEntry acc c := by
  unfold fuseStep
  rw [h]
  show (if e.2.2 < c.2.2 then replaceEntry acc c else acc) = replaceEntry acc c
  exact if_pos hgt

theorem fuseStep_eq_keep (acc : List FusedEntry) (c e : FusedEntry)
    (h : acc.find? (fun x => x.1 = c.1) = some e) (hgt : ¬ e.2.2 < c.2.2) :
    fuseStep acc c = acc := by
  unfold fuseStep
  rw [h]
  show (if e.2.2 < c.2.2 then replaceEntry acc c else acc) = acc
  exact if_neg hgt

/-- The dict lookup after the fold carries, for every key, exactly the
maximum weighted score among that key's candidates. -/

theorem fuseFold_find?_score (k : DocKey) :
    ∀ cands : List FusedEntry,
      ((cands.foldl fuseStep []).find? (fun e => e.1 = k)).map
          (fun e => e.2.2) =
        ((cands.filter (fun c => c.1 = k)).map (fun c => c.2.2)).max? := by
  intro cands
  induction cands using List.reverseRecOn with
  | nil => rfl
  | append_singleton cs c ih =>
      rw [List.foldl_append, List.foldl_cons, List.foldl_nil,
        List.filter_append, List.map_append]
      by_cases hk : c.1 = k
      · subst hk
        have hfc : List.filter (fun x => x.1 = c.1) [c] = [c] := by simp
        rw [hfc, List.map_cons, List.map_nil]
        cases hfind : (cs.foldl fuseStep []).find? (fun e => e.1 = c.1) with
        | none =>
            have holds : ((cs.filter (fun x => x.1 = c.1)).map
                (fun c => c.2.2)) = [] := by
              rw [hfind] at ih
              exact List.max?_eq_none_iff.mp ih.symm
            rw [holds, fuseStep_eq_append _ _ hfind, List.find?_append, hfind,
              Option.none_or]
            simp
        | some e =>
            have holds : ((cs.filter (fun x => x.1 = c.1)).map
                (fun c => c.2.2)).max? = some e.2.2 := by
              rw [hfind] at ih
              exact ih.symm
            rw [max?_concat, holds]
            by_cases hgt : e.2.2 < c.2.2
            · rw [fuseStep_eq_replace _ c e hfind hgt,
                find?_replaceEntry_self (cs.foldl fuseStep []) c e hfind]
              show some c.2.2 = some (max e.2.2 c.2.2)
              rw [max_eq_right (le_of_lt hgt)]
            · rw [fuseStep_eq_keep _ c e hfind hgt, hfind]
              show some e.2.2 = some (max e.2.2 c.2.2)
              rw [max_eq_left (not_lt.mp hgt)]
      · have hfc : List.filter (fun x => x.1 = k) [c] = [] := by simp [hk]
        rw [hfc, List.map_nil, List.append_nil]
        have hstep : (fuseStep (cs.foldl fuseStep []) c).find?
            (fun e => e.1 = k) =
            (cs.foldl fuseStep []).find? (fun e => e.1 = k) := by
          cases hfind : (cs.foldl fuseStep []).find? (fun e => e.1 = c.1) with
          | none =>
              rw [fuseStep_eq_append _ _ hfind, List.find?_append]
              have h1 : List.find? (fun x => x.1 = k) [c] = none := by
                simp [hk]
              rw [h1]
              cases (cs.foldl fuseStep []).find? (fun e => e.1 = k) <;> rfl
          | some e =>
              by_cases hgt : e.2.2 < c.2.2
              · rw [fuseStep_eq_replace _ c e hfind hgt]
                exact find?_replaceEntry_ne _ c k (fun h => hk h.symm)
              · rw [fuseStep_eq_keep _ c e hfind hgt]
        rw [hstep, ih]

theorem fuseStep_mem (acc : List FusedEntry) (c : FusedEntry) :
    ∀ e ∈ fuseStep acc c, e ∈ acc ∨ e = c := by
  intro e he
  cases hfind : acc.find? (fun x => x.1 = c.1) with
  | none =>
      rw [fuseStep_eq_append _ _ hfind] at he
      rcases List.mem_append.mp he with h | h
      · exact Or.inl h
      · exact Or.inr (by simpa using h)
  | some e₀ =>
      by_cases hgt : e₀.2.2 < c.2.2
      · rw [fuseStep_eq_replace _ c e₀ hfind hgt] at he
        exact replaceEntry_mem acc c e he
      · rw [fuseStep_eq_keep _ c e₀ hfind hgt] at he
        exact Or.inl he

theorem fuseFold_mem : ∀ (cands acc : List FusedEntry) (e : FusedEntry),
    e ∈ cands.foldl fuseStep acc → e ∈ acc ∨ e ∈ cands := by
  intro cands
  induction cands with
  | nil => intro acc e he; exact Or.inl he
  | cons c cs ih =>
      intro acc e he
      rw [List.foldl_cons] at he
      rcases ih (fuseStep acc c) e he with h | h
      · rcases fuseStep_mem acc c e h with h' | h'
        · exact Or.inl h'
        · exact Or.inr (h' ▸ List.mem_cons_self c cs)
      · exact Or.inr (List.mem_cons_of_mem c h)

theorem fuseStep_keys_nodup (acc : List FusedEntry) (c : FusedEntry)
    (h : (acc.map (fun e => e.1)).Nodup) :
    ((fuseStep acc c).map (fun e => e.1)).Nodup := by
  cases hfind : acc.find? (fun x => x.1 = c.1) with
  | none =>
      have hnotmem : c.1 ∉ acc.map (fun e => e.1) := by
        intro hmem
        obtain ⟨e, he, hke⟩ := List.mem_map.mp hmem
        have hne := List.find?_eq_none.mp hfind e he
        simp only [decide_eq_true_eq] at hne
        exact hne hke
      rw [fuseStep_eq_append _ _ hfind]
      simp only [List.map_append, List.map_cons, List.map_nil]
      rw [List.nodup_append]
      exact ⟨h, List.nodup_singleton _, by
        intro a ha hb
        rcases List.mem_singleton.mp hb with rfl
        exact hnotmem ha⟩
  | some e =>
      by_cases hgt : e.2.2 < c.2.2
      · rw [fuseStep_eq_replace _ c e hfind hgt, replaceEntry_keys]
        exact h
      · rw [fuseStep_eq_keep _ c e hfind hgt]
        exact h

theorem fuseFold_keys_nodup : ∀ (cands acc : List FusedEntry),
    (acc.map (fun e => e.1)).Nodup →
    ((cands.foldl fuseStep acc).map (fun e => e.1)).Nodup := by
  intro cands
  induction cands with
  | nil => intro acc h; exact h
  | cons c cs ih =>
      intro acc h
      rw [List.foldl_cons]
      exact ih (fuseStep acc c) (fuseStep_keys_nodup acc c h)

/-- C2 (amended). Hybrid fusion scores each candidate
`weight * 1/(rank+1)` in its source list, deduplicates by
`(hash(text[:200]), source, page)` keeping, per key, exactly the highest
fused score, and returns **all** deduplicated candidates sorted by fused
score descending — it is **not** truncated to `top_k` (each underlying
retriever limits its own list to `k`, but the fused output may hold up to
the sum of the list lengths; see `C2_counterexample`).  Formally: the final
dict maps each key to the maximum candidate score for that key, its keys
are pairwise distinct, each of its entries is one of the weighted
candidates, the output order is a score-descending permutation of the
dict, and the returned documents are exactly those of the sorted
entries. -/

theorem C2_hybrid_fusion (hashFn : Str → Int)
    (pairs : List (List LCDocument × ℚ)) :
    (∀ k : DocKey,
      (((fuseDict hashFn pairs).find? (fun e => e.1 = k)).map
          (fun e => e.2.2)) =
        (((weightedCandidates hashFn pairs).filter (fun c => c.1 = k)).map
          (fun c => c.2.2)).max?) ∧
    ((fuseDict hashFn pairs).map (fun e => e.1)).Nodup ∧
    (∀ e ∈ fuseDict hashFn pairs, e ∈ weightedCandidates hashFn pairs) ∧
    (fusedSorted hashFn pairs).Pairwise (fun a b => b.2.2 ≤ a.2.2) ∧
    (fusedSorted hashFn pairs).Perm (fuseDict hashFn pairs) ∧
    EnsembleRetriever.getRelevantDocuments hashFn pairs =
      (fusedSorted hashFn pairs).map (fun e => e.2.1) := by
  refine ⟨fun k => fuseFold_find?_score k (weightedCandidates hashFn pairs),
    fuseFold_keys_nodup _ [] (List.nodup_nil),
    ?_, ?_, List.mergeSort_perm _ _, ?_⟩
  · intro e he
    rcases fuseFold_mem (weightedCandidates hashFn pairs) [] e he with h | h
    · cases h
    · exact h
  · have hs := @List.sorted_mergeSort FusedEntry
      (fun a b : FusedEntry => decide (b.2.2 ≤ a.2.2))
      (fun a b c hab hbc => by
        simp only [decide_eq_true_eq] at *
        exact le_trans hbc hab)
      (fun a b => by
        simp only [Bool.or_eq_true, decide_eq_true_eq]
        exact le_total b.2.2 a.2.2)
      (fuseDict hashFn pairs)
    exact hs.imp (fun h => by simpa using h)
  · unfold EnsembleRetriever.getRelevantDocuments fusedSorted fuseDict
    rw [fold_nested_eq_flat hashFn pairs []]

/-- The concrete documents of the C2 scenario: one dense hit and one
lexical hit with distinct sources. -/

theorem C2_hybrid_fusion_witness :
    ((fuseDict (fun _ => 0) c2Pairs).map (fun e => e.1)).Nodup ∧
    (∃ e ∈ fuseDict (fun _ => 0) c2Pairs,
      e ∈ weightedCandidates (fun _ => 0) c2Pairs) := by
  have h := C2_hybrid_fusion (fun _ => 0) c2Pairs
  refine ⟨h.2.1, ?_⟩
  have hlen : (fuseDict (fun _ => 0) c2Pairs).length = 2 := by decide
  rcases hd : fuseDict (fun _ => 0) c2Pairs with _ | ⟨e, es⟩
  · rw [hd] at hlen
    cases hlen
  · have hmem : e ∈ fuseDict (fun _ => 0) c2Pairs := by
      rw [hd]
      exact List.mem_cons_self e es
    exact ⟨e, List.mem_cons_self e es, h.2.2.1 e hmem⟩

/-- C2 (counterexample). The fused output is *not* truncated to
`top_k`: with `top_k = 1` (each retriever contributes at most one
candidate), dense `[X]` at weight 0.7 and lexical `[Z]` at weight 0.3
fuse into an output of **two** documents. -/

theorem C2_counterexample :
    (∀ docs ∈ c2Pairs.map (fun rw => rw.1), docs.length ≤ 1) ∧
    ¬ (EnsembleRetriever.getRelevantDocuments (fun _ => 0) c2Pairs).length ≤ 1 := by
  constructor
  · decide
  · have hlen : (EnsembleRetriever.getRelevantDocuments (fun _ => 0)
        c2Pairs).length = 2 := by
      show ((((c2Pairs.foldl (fun acc rw =>
        (List.enumFrom 0 rw.1).foldl (fun acc p =>
          fuseStep acc (docKey (fun _ => 0) p.2, p.2,
            rw.2 * (1 / (p.1 + 1 : ℚ)))) acc) []).mergeSort
              (fun a b => decide (b.2.2 ≤ a.2.2))).map (fun e => e.2.1)).length) = 2
      rw [List.length_map, List.length_mergeSort,
        fold_nested_eq_flat (fun _ => 0) c2Pairs []]
      decide
    omega
